import Mathlib

/-!
# StudySpot browser client: listing pipeline, check-in form and trend view

A shallow embedding of the client-side logic of `frontend/src/App.jsx`,
`frontend/src/components/CheckInForm.jsx` and
`frontend/src/components/SpaceDetail.jsx`, followed by the properties proved
about it.

Conventions of the embedding.

* A field of a JSON payload is `Nullable α`: it is `undefined` (absent),
  `null`, or holds a value.
* Finite JavaScript numbers are rationals (every finite double is one); the
  non-finite results of arithmetic that the code can produce (`Infinity`,
  `-Infinity`, `NaN`) are the extra constructors of `JsNum`. A difference of two
  finite numbers is taken exactly: the comparator is only read through its
  sign, and the sign of a difference of doubles is that of the exact one.
* `Array.prototype.sort` is a stable sort (ECMAScript 2019); it is embedded as
  stable insertion driven by the comparator's sign, with a `NaN` result read as
  `+0` as `SortCompare` prescribes. Where the comparator is consistent on the
  elements of the array this is the order every engine returns; where it is
  not, ECMAScript leaves the order to the engine, and nothing below is
  evaluated on such an array.
* Reading `table[key]` on an object literal finds the literal's own properties
  first and then the properties every object inherits from `Object.prototype`.
* The numbers of `haversineDistance` are a parameter: the function is written
  once over a carrier with the operations of `Math`. The listing runs it on
  JavaScript numbers (`JsNum`), where it can return `NaN`; `realMath` is its
  reading in exact real arithmetic, which agrees with the doubles only where
  rounding plays no part.
-/

namespace StudySpot

/-! ## JavaScript values -/

/-- A possibly absent JavaScript value: `undefined`, `null` or a value. -/
inductive Nullable (α : Type) where
  | undefined : Nullable α
  | null : Nullable α
  | val (a : α) : Nullable α
  deriving DecidableEq, Repr

/-- The test `x == null`, true exactly for `null` and `undefined`. -/
def Nullable.isNullish {α : Type} : Nullable α → Bool
  | .undefined => true
  | .null => true
  | .val _ => false

/-- A JavaScript number as the listing code can produce it. -/
inductive JsNum where
  | fin (q : ℚ) : JsNum
  | posInf : JsNum
  | negInf : JsNum
  | nan : JsNum
  deriving DecidableEq

/-- The subtraction `x - y` of two numbers. -/
def JsNum.sub : JsNum → JsNum → JsNum
  | .nan, _ => .nan
  | _, .nan => .nan
  | .fin a, .fin b => .fin (a - b)
  | .fin _, .posInf => .negInf
  | .fin _, .negInf => .posInf
  | .posInf, .fin _ => .posInf
  | .negInf, .fin _ => .negInf
  | .posInf, .negInf => .posInf
  | .negInf, .posInf => .negInf
  | .posInf, .posInf => .nan
  | .negInf, .negInf => .nan

/-- The comparison `x <= y` of two numbers (false as soon as one is `NaN`). -/
def JsNum.le : JsNum → JsNum → Bool
  | .nan, _ => false
  | _, .nan => false
  | .negInf, _ => true
  | _, .posInf => true
  | .fin a, .fin b => decide (a ≤ b)
  | .fin _, .negInf => false
  | .posInf, .fin _ => false
  | .posInf, .negInf => false

/-- The test `x > 0` on a number. -/
def JsNum.isPos : JsNum → Bool
  | .fin q => decide (0 < q)
  | .posInf => true
  | .negInf => false
  | .nan => false

/-- The expression `x ?? Infinity` for a numeric field. -/
def orInfinity : Nullable ℚ → JsNum
  | .undefined => .posInf
  | .null => .posInf
  | .val q => .fin q

/-- The expression `x ?? Infinity` for a field that holds a number the client
computed, `NaN` included: only `null` and `undefined` are replaced. -/
def numberOrInfinity : Nullable JsNum → JsNum
  | .undefined => .posInf
  | .null => .posInf
  | .val x => x

/-- The conversion of a JSON number field to a JavaScript number. -/
def Nullable.toJsNum : Nullable ℚ → Nullable JsNum
  | .undefined => .undefined
  | .null => .null
  | .val q => .val (.fin q)

/-! ## Data model -/

/-- A study space as listed by `GET /spaces`, with the client-side `distance`,
which is `null` or whatever number `haversineDistance` returned. -/
structure Space where
  id : Int
  name : String
  latitude : Nullable ℚ
  longitude : Nullable ℚ
  recent_noise_level : Nullable String
  recent_crowding : Nullable String
  recent_outlets : Nullable String
  last_updated_minutes : Nullable ℚ
  distance : Nullable JsNum
  deriving DecidableEq

/-- The three filter toggles. -/
structure Filters where
  quietOnly : Bool
  outletsOnly : Bool
  recentOnly : Bool
  deriving DecidableEq, Repr

/-- The constant `defaultFilters`. -/
def defaultFilters : Filters :=
  { quietOnly := false, outletsOnly := false, recentOnly := false }

/-! ## Filtering (`filteredSpaces`) -/

/-- The test `space.recent_noise_level === "quiet"`. -/
def isQuiet (v : Nullable String) : Bool :=
  match v with
  | .val s => s == "quiet"
  | _ => false

/-- The expression `space.recent_outlets || ""`. -/
def orEmptyString : Nullable String → String
  | .val s => s
  | _ => ""

/-- The test `["yes", "some"].includes(space.recent_outlets || "")`. -/
def hasOutlets (v : Nullable String) : Bool :=
  ["yes", "some"].contains (orEmptyString v)

/-- The test `(space.last_updated_minutes ?? Infinity) <= 60`. -/
def isRecent (v : Nullable ℚ) : Bool :=
  (orInfinity v).le (.fin 60)

/-- The predicate passed to `filter` in `filteredSpaces`. -/
def passesFilters (filters : Filters) (space : Space) : Bool :=
  let quietPass := !filters.quietOnly || isQuiet space.recent_noise_level
  let outletsPass := !filters.outletsOnly || hasOutlets space.recent_outlets
  let recentPass := !filters.recentOnly || isRecent space.last_updated_minutes
  quietPass && outletsPass && recentPass

/-- The memo `filteredSpaces`. -/
def filteredSpaces (filters : Filters) (spacesWithDistance : List Space) : List Space :=
  spacesWithDistance.filter (passesFilters filters)

/-- As the specification words it: `last_updated_minutes` is present and at
most 60. -/
def SpecRecent (v : Nullable ℚ) : Prop :=
  ∃ m : ℚ, v = .val m ∧ m ≤ 60

/-- As the specification words it: the space satisfies every enabled predicate. -/
def SpecKeeps (filters : Filters) (s : Space) : Prop :=
  (filters.quietOnly = true → s.recent_noise_level = .val "quiet") ∧
  (filters.outletsOnly = true →
    s.recent_outlets = .val "yes" ∨ s.recent_outlets = .val "some") ∧
  (filters.recentOnly = true → SpecRecent s.last_updated_minutes)

instance instDecidableSpecRecent (v : Nullable ℚ) : Decidable (SpecRecent v) :=
  match v with
  | .val m =>
    if h : m ≤ 60 then isTrue ⟨m, rfl, h⟩
    else isFalse (fun ⟨_, hv, hm⟩ => by cases hv; exact h hm)
  | .null => isFalse (fun ⟨_, hv, _⟩ => by cases hv)
  | .undefined => isFalse (fun ⟨_, hv, _⟩ => by cases hv)

instance instDecidableSpecKeeps (filters : Filters) (s : Space) :
    Decidable (SpecKeeps filters s) := by
  unfold SpecKeeps
  exact inferInstance

/-- A sample space used to evaluate the pipeline. -/
def sampleSpace (i : Int) (noise crowding outlets : Nullable String)
    (minutes : Nullable ℚ) (dist : Nullable JsNum) : Space :=
  { id := i, name := "room", latitude := .null, longitude := .null,
    recent_noise_level := noise, recent_crowding := crowding,
    recent_outlets := outlets, last_updated_minutes := minutes, distance := dist }

/-- A small listing used to evaluate the pipeline. -/
def sampleSpaces : List Space :=
  [ sampleSpace 1 (.val "quiet") (.val "some") (.val "yes") (.val 5) (.val (.fin 2)),
    sampleSpace 2 (.val "loud") (.val "empty") (.val "no") (.val 90) .null,
    sampleSpace 3 .null .null .undefined .null (.val (.fin 1)) ]

/-! ## Rank tables and property reads -/

/-- The names of the properties that every object literal inherits from
`Object.prototype` (ECMAScript, with the legacy accessors of Annex B). -/
def objectPrototypeKeys : List String :=
  [ "constructor", "hasOwnProperty", "isPrototypeOf", "propertyIsEnumerable",
    "toLocaleString", "toString", "valueOf", "__proto__", "__defineGetter__",
    "__defineSetter__", "__lookupGetter__", "__lookupSetter__" ]

/-- The constant `CROWDING_ORDER = { empty: 0, some: 1, full: 2 }`. -/
def CROWDING_ORDER : List (String × ℚ) := [("empty", 0), ("some", 1), ("full", 2)]

/-- The constant `NOISE_ORDER = { quiet: 0, moderate: 1, loud: 2 }`. -/
def NOISE_ORDER : List (String × ℚ) := [("quiet", 0), ("moderate", 1), ("loud", 2)]

/-- The property key a field value is converted to when it indexes an object:
`null` and `undefined` become the strings of those names. -/
def toPropertyKey : Nullable String → String
  | .undefined => "undefined"
  | .null => "null"
  | .val s => s

/-- The value of a property read `table[key]` on an object literal. -/
inductive Lookup where
  | own (n : ℚ) : Lookup
  | inherited (name : String) : Lookup
  | undefined : Lookup
  deriving DecidableEq

/-- The property read `table[key]`: an own property of the literal, else a
property inherited from `Object.prototype`, else `undefined`. -/
def getProperty (table : List (String × ℚ)) (key : Nullable String) : Lookup :=
  match table.lookup (toPropertyKey key) with
  | some n => .own n
  | none =>
    if objectPrototypeKeys.contains (toPropertyKey key) then .inherited (toPropertyKey key)
    else .undefined

/-- The expression `table[key] ?? Infinity` converted to a number, as the
subtraction in the comparator does: an inherited function or object is `NaN`. -/
def Lookup.orInfinityNumber : Lookup → JsNum
  | .own n => .fin n
  | .inherited _ => .nan
  | .undefined => .posInf

/-! ## Sorting (`sortedSpaces`) -/

/-- The comparator passed to `clone.sort` in `sortedSpaces`. -/
def compareSpaces (sortBy : String) (a b : Space) : JsNum :=
  if sortBy = "distance" then
    let da := numberOrInfinity a.distance
    let db := numberOrInfinity b.distance
    da.sub db
  else if sortBy = "crowding" then
    let ca := (getProperty CROWDING_ORDER a.recent_crowding).orInfinityNumber
    let cb := (getProperty CROWDING_ORDER b.recent_crowding).orInfinityNumber
    ca.sub cb
  else if sortBy = "noise" then
    let na := (getProperty NOISE_ORDER a.recent_noise_level).orInfinityNumber
    let nb := (getProperty NOISE_ORDER b.recent_noise_level).orInfinityNumber
    na.sub nb
  else
    let la := orInfinity a.last_updated_minutes
    let lb := orInfinity b.last_updated_minutes
    la.sub lb

/-- The abstract operation `SortCompare` for defined elements: the comparator's
result, with `NaN` replaced by `+0`. -/
def sortCompare {α : Type} (comparefn : α → α → JsNum) (x y : α) : JsNum :=
  match comparefn x y with
  | .nan => .fin 0
  | v => v

/-- Insertion of `x` into the sorted list of the elements that followed it in
the array: `x` moves right past `y` only when `SortCompare(x, y) > 0`, so equal
elements keep their order. -/
def insertSorted {α : Type} (comparefn : α → α → JsNum) (x : α) : List α → List α
  | [] => [x]
  | y :: ys =>
    if (sortCompare comparefn x y).isPos then y :: insertSorted comparefn x ys
    else x :: y :: ys

/-- The method `Array.prototype.sort(comparefn)`, a stable sort: the order it
returns whenever `comparefn` is consistent on the elements. -/
def arraySort {α : Type} (comparefn : α → α → JsNum) : List α → List α
  | [] => []
  | x :: xs => insertSorted comparefn x (arraySort comparefn xs)

/-- The memo `sortedSpaces`: a sorted copy of `filteredSpaces`. -/
def sortedSpaces (sortBy : String) (filteredSpaces : List Space) : List Space :=
  let clone := filteredSpaces
  arraySort (compareSpaces sortBy) clone

/-- The number a space is ordered by under a sort key: the operand that the
comparator computes for it. -/
def sortKey (sortBy : String) (s : Space) : JsNum :=
  if sortBy = "distance" then numberOrInfinity s.distance
  else if sortBy = "crowding" then (getProperty CROWDING_ORDER s.recent_crowding).orInfinityNumber
  else if sortBy = "noise" then (getProperty NOISE_ORDER s.recent_noise_level).orInfinityNumber
  else orInfinity s.last_updated_minutes

/-- The value a rank table is indexed with names no inherited property. -/
def namesNoInheritedProperty (v : Nullable String) : Prop :=
  toPropertyKey v ∉ objectPrototypeKeys

/-- A distance is `null`, `undefined` or a finite number. -/
def finiteOrMissing (v : Nullable JsNum) : Prop :=
  ∀ x, v = .val x → ∃ q, x = .fin q

/-- For a space, the value the sort key orders it by is well defined: under the
distance key the distance is missing or finite, and the field ranked through a
table (`recent_crowding` for crowding, `recent_noise_level` for noise) names no
property inherited from `Object.prototype`. The last-update key asks nothing. -/
def rankResolved (sortBy : String) (s : Space) : Prop :=
  (sortBy = "distance" → finiteOrMissing s.distance) ∧
    (sortBy = "crowding" → namesNoInheritedProperty s.recent_crowding) ∧
    (sortBy = "noise" → namesNoInheritedProperty s.recent_noise_level)

/-- Every space of a list has a well defined value under the sort key. -/
def RanksResolved (sortBy : String) (spaces : List Space) : Prop :=
  ∀ s ∈ spaces, rankResolved sortBy s

/-- Whether a field value is one of the names of a rank table. -/
def inRankTable (names : List String) : Nullable String → Bool
  | .val s => names.contains s
  | _ => false

/-- As the specification words it: the value of a space for the sort key is
missing, that is `null`, `undefined` or, for crowding and noise, not in the
rank table. An unrecognised key is read as `lastUpdated`. -/
def keyMissing (sortBy : String) (s : Space) : Bool :=
  if sortBy = "distance" then s.distance.isNullish
  else if sortBy = "crowding" then !inRankTable ["empty", "some", "full"] s.recent_crowding
  else if sortBy = "noise" then !inRankTable ["quiet", "moderate", "loud"] s.recent_noise_level
  else s.last_updated_minutes.isNullish

/-- As the specification words it: crowding ranks `empty < some < full`, any
other value being missing and ranked infinite. -/
def specCrowdingRank : Nullable String → JsNum
  | .val "empty" => .fin 0
  | .val "some" => .fin 1
  | .val "full" => .fin 2
  | _ => .posInf

/-- As the specification words it: noise ranks `quiet < moderate < loud`, any
other value being missing and ranked infinite. -/
def specNoiseRank : Nullable String → JsNum
  | .val "quiet" => .fin 0
  | .val "moderate" => .fin 1
  | .val "loud" => .fin 2
  | _ => .posInf

/-- As the specification words it: the rank of a space under a sort key, the
number itself for distance and last update, a missing value ranked infinite. -/
def specRank (sortBy : String) (s : Space) : JsNum :=
  if sortBy = "distance" then numberOrInfinity s.distance
  else if sortBy = "crowding" then specCrowdingRank s.recent_crowding
  else if sortBy = "noise" then specNoiseRank s.recent_noise_level
  else orInfinity s.last_updated_minutes

/-- A listing whose first space reports the crowding `constructor`. -/
def inheritedCrowdingSpaces : List Space :=
  [ sampleSpace 1 (.val "quiet") (.val "constructor") (.val "yes") (.val 5) .null,
    sampleSpace 2 (.val "quiet") (.val "empty") (.val "yes") (.val 7) .null ]

/-- A listing as `spacesWithDistance` gives it when the first space has no
coordinates and `haversineDistance` returned `NaN` for the second. -/
def nanDistanceSpaces : List Space :=
  [ sampleSpace 1 (.val "quiet") (.val "some") (.val "yes") (.val 5) .null,
    sampleSpace 2 (.val "quiet") (.val "some") (.val "yes") (.val 7) (.val .nan) ]

/-- A listing as `spacesWithDistance` gives it when `haversineDistance`
returned `NaN` for the first space and 3.5 miles for the second. -/
def nanDistanceFirstSpaces : List Space :=
  [ sampleSpace 1 (.val "quiet") (.val "some") (.val "yes") (.val 5) (.val .nan),
    sampleSpace 2 (.val "quiet") (.val "some") (.val "yes") (.val 7) (.val (.fin 3.5)) ]

/-- A listing of two spaces, the first reporting the noise level `toString`. -/
def inheritedNoisePair : List Space :=
  [ sampleSpace 1 (.val "toString") (.val "some") (.val "yes") (.val 5) .null,
    sampleSpace 2 (.val "quiet") (.val "some") (.val "yes") (.val 7) .null ]

/-! ## Check-in form (`CheckInForm`) -/

/-- The value of `form.space_id`: the empty selection `""` or a space id. -/
inductive SpaceIdValue where
  | empty : SpaceIdValue
  | num (n : Int) : SpaceIdValue
  deriving DecidableEq, Repr

/-- The test `!form.space_id`: the empty string and the number `0` are falsy. -/
def SpaceIdValue.isFalsy : SpaceIdValue → Bool
  | .empty => true
  | .num n => n == 0

/-- The state `form` of the check-in form. -/
structure Form where
  space_id : SpaceIdValue
  noise_level : String
  crowding : String
  outlets_available : String
  notes : String
  deriving DecidableEq, Repr

/-- The state `status` of the check-in form, once set. -/
structure Status where
  type : String
  message : String
  deriving DecidableEq, Repr

/-- The two pieces of state held by `CheckInForm`. -/
structure FormState where
  form : Form
  status : Option Status
  deriving DecidableEq, Repr

/-- A state update queued by `handleSubmit`: `setStatus(value)` or
`setForm(updater)`. -/
inductive StateUpdate where
  | setStatus (value : Status) : StateUpdate
  | setForm (updater : Form → Form) : StateUpdate

/-- The effect of one queued update on the component state. -/
def StateUpdate.apply : StateUpdate → FormState → FormState
  | .setStatus value, st => { st with status := some value }
  | .setForm updater, st => { st with form := updater st.form }

/-- The effect of the queued updates, in the order they were queued. -/
def applyUpdates (updates : List StateUpdate) (st : FormState) : FormState :=
  updates.foldl (fun acc u => u.apply acc) st

/-- What one run of `handleSubmit` does: the calls it makes to `onSubmit`,
each with the value the call resolved to, and the state updates it queues. -/
structure SubmitRun where
  calls : List (Form × Bool)
  updates : List StateUpdate

/-- The handler `handleSubmit` of `CheckInForm`, run with the `form` of the
current render; `onSubmit` gives the value its promise resolves to. -/
def handleSubmit (onSubmit : Form → Bool) (form : Form) : SubmitRun :=
  if form.space_id.isFalsy then
    { calls := [],
      updates := [.setStatus { type := "error", message := "Select a study space." }] }
  else
    let success := onSubmit form
    if success then
      { calls := [(form, success)],
        updates :=
          [ .setStatus { type := "success", message := "Thanks for keeping StudySpaces fresh!" },
            .setForm (fun prev => { prev with notes := "" }) ] }
    else
      { calls := [(form, success)],
        updates := [.setStatus { type := "error", message := "Something went wrong. Try again." }] }

/-- The initial `form` of `CheckInForm` with no default space. -/
def initialForm : Form :=
  { space_id := .empty, noise_level := "quiet", crowding := "some",
    outlets_available := "yes", notes := "" }

/-- A filled-in form used to evaluate the handler. -/
def sampleForm : Form :=
  { space_id := .num 3, noise_level := "loud", crowding := "full",
    outlets_available := "no", notes := "windows open" }

/-! ## Trend data (`SpaceDetail`) -/

/-- A check-in as returned by `GET /spaces/{id}/recent-checkins`. -/
structure CheckIn where
  id : Int
  space_id : Int
  noise_level : Nullable String
  crowding : Nullable String
  outlets_available : Nullable String
  notes : Nullable String
  timestamp : String
  deriving DecidableEq

/-- The constant `CROWDING_POINTS = { empty: 1, some: 2, full: 3 }`. -/
def CROWDING_POINTS : List (String × ℚ) := [("empty", 1), ("some", 2), ("full", 3)]

/-- The test `!point` on a property read: `undefined` and the number `0` are
falsy, an inherited function or object is truthy. -/
def Lookup.isFalsy : Lookup → Bool
  | .own n => n == 0
  | .inherited _ => false
  | .undefined => true

/-- One point of the trend chart. -/
structure TrendPoint where
  label : String
  crowding : Lookup
  deriving DecidableEq

/-- The callback passed to `map` in `trendData`. `formatTime` is the
`Intl.DateTimeFormat` rendering of a timestamp, `none` where the timestamp is no
valid date and `format` throws a `RangeError`. The outer `none` of the result is
that throw, the inner `none` is the callback's `null`. -/
def trendPoint (formatTime : String → Option String) (checkin : CheckIn) :
    Option (Option TrendPoint) :=
  let point := getProperty CROWDING_POINTS checkin.crowding
  if point.isFalsy then some none
  else
    match formatTime checkin.timestamp with
    | some label => some (some { label := label, crowding := point })
    | none => none

/-- The method `Array.prototype.map` with a callback that can throw: the first
throw ends the call (`none`). -/
def mapThrowing {α β : Type} (callback : α → Option β) : List α → Option (List β)
  | [] => some []
  | x :: xs =>
    match callback x with
    | none => none
    | some y =>
      match mapThrowing callback xs with
      | none => none
      | some ys => some (y :: ys)

/-- The memo `trendData`: the chart data, or `none` when computing it throws.
The `reverse` acts on the copy made by `slice()`. -/
def trendData (formatTime : String → Option String) (recentCheckins : List CheckIn) :
    Option (List TrendPoint) :=
  let reversed := recentCheckins.reverse
  match mapThrowing (trendPoint formatTime) reversed with
  | none => none
  | some mapped => some (mapped.filterMap id)

/-- As the specification words it: the point of a check-in on the 3-point
scale `empty -> 1`, `some -> 2`, `full -> 3`, any other check-in being dropped;
`render` gives the label of a timestamp. -/
def specPoint (render : String → String) (checkin : CheckIn) : Option TrendPoint :=
  match checkin.crowding with
  | .val "empty" => some { label := render checkin.timestamp, crowding := .own 1 }
  | .val "some" => some { label := render checkin.timestamp, crowding := .own 2 }
  | .val "full" => some { label := render checkin.timestamp, crowding := .own 3 }
  | _ => none

/-- As the specification words it: the reversed list of check-ins, each mapped
to its point, the check-ins without a point dropped. -/
def specTrendData (render : String → String) (recentCheckins : List CheckIn) :
    List TrendPoint :=
  recentCheckins.reverse.filterMap (specPoint render)

/-- A check-in used to evaluate the trend data. -/
def sampleCheckIn (i : Int) (crowding : Nullable String) : CheckIn :=
  { id := i, space_id := 1, noise_level := .val "quiet", crowding := crowding,
    outlets_available := .val "yes", notes := .null, timestamp := "2024-01-01T10:00:00" }

/-- Eleven check-ins, each reporting a crowding of the scale. -/
def elevenCheckIns : List CheckIn :=
  (List.range 11).map (fun i => sampleCheckIn i (.val "some"))

/-! ## Distance (`haversineDistance`) -/

/-- The number operations `haversineDistance` uses, over a carrier `F` of
numbers: literals, arithmetic, `x ** 2`, the `Math` members and the round trip
`+x.toFixed(2)`. -/
structure JsMath (F : Type) where
  lit : ℚ → F
  add : F → F → F
  sub : F → F → F
  mul : F → F → F
  div : F → F → F
  sq : F → F
  PI : F
  sin : F → F
  cos : F → F
  sqrt : F → F
  atan2 : F → F → F
  toFixed2 : F → F

/-- The body of `haversineDistance` past the guard, on four numbers. -/
def haversineMiles {F : Type} (M : JsMath F) (lat1 lon1 lat2 lon2 : F) : F :=
  let toRad := fun deg => M.div (M.mul deg M.PI) (M.lit 180)
  let R := M.lit 6371
  let dLat := toRad (M.sub lat2 lat1)
  let dLon := toRad (M.sub lon2 lon1)
  let a :=
    M.add (M.sq (M.sin (M.div dLat (M.lit 2))))
      (M.mul (M.mul (M.cos (toRad lat1)) (M.cos (toRad lat2)))
        (M.sq (M.sin (M.div dLon (M.lit 2)))))
  let c := M.mul (M.lit 2) (M.atan2 (M.sqrt a) (M.sqrt (M.sub (M.lit 1) a)))
  let distanceKm := M.mul R c
  M.toFixed2 (M.mul distanceKm (M.lit 0.621371))

/-- The function `haversineDistance`: `null` when a coordinate is `null` or
`undefined`, the distance in miles otherwise. -/
def haversineDistance {F : Type} (M : JsMath F) (lat1 lon1 lat2 lon2 : Nullable F) :
    Nullable F :=
  if [lat1, lon1, lat2, lon2].any Nullable.isNullish then .null
  else
    match lat1, lon1, lat2, lon2 with
    | .val a, .val b, .val c, .val d => .val (haversineMiles M a b c d)
    | _, _, _, _ => .undefined

/-- The operations of `JsMath` read in exact real arithmetic: the real `sin`,
`cos` and square root, `atan2 y x` as the argument of `x + y i`, and `toFixed(2)`
as the nearest multiple of 1/100, ties away from zero, below `10 ^ 21` in
absolute value. It agrees with the doubles of the code where no operation rounds
(as at two identical points); elsewhere the code can differ, up to returning
`NaN` where `1 - a` rounds below zero. -/
noncomputable def realMath : JsMath ℝ where
  lit q := (q : ℝ)
  add x y := x + y
  sub x y := x - y
  mul x y := x * y
  div x y := x / y
  sq x := x ^ 2
  PI := Real.pi
  sin := Real.sin
  cos := Real.cos
  sqrt := Real.sqrt
  atan2 y x := Complex.arg ⟨x, y⟩
  toFixed2 x :=
    if (10 : ℝ) ^ 21 ≤ |x| then x
    else if x < 0 then -((⌊-x * 100 + 1 / 2⌋ : ℝ) / 100)
    else (⌊x * 100 + 1 / 2⌋ : ℝ) / 100

/-! ## Statements of the specification about sorting and trend data -/

/-- As the specification words it: in a list, no space whose value for the sort
key is missing comes before a space whose value is present. -/
def MissingLast (sortBy : String) (spaces : List Space) : Prop :=
  spaces.Pairwise (fun a b => ¬ (keyMissing sortBy a = true ∧ keyMissing sortBy b = false))

/-- As the specification words it: a list is non-decreasing in the rank of the
sort key. -/
def RankNondecreasing (sortBy : String) (spaces : List Space) : Prop :=
  spaces.Pairwise (fun a b => (specRank sortBy a).le (specRank sortBy b) = true)

/-- As the specification words it: the crowding value of a point is 1, 2 or 3. -/
def OnScale (p : TrendPoint) : Prop :=
  p.crowding = .own 1 ∨ p.crowding = .own 2 ∨ p.crowding = .own 3

/-- As the specification words it, for timestamps that all render: the trend
data is the reversed list of check-ins mapped to the 3-point scale, and every
point is on the scale. -/
def TrendAsSpecified (render : String → String) (recentCheckins : List CheckIn) : Prop :=
  ∃ points : List TrendPoint,
    trendData (fun t => some (render t)) recentCheckins = some points ∧
      points = specTrendData render recentCheckins ∧ ∀ p ∈ points, OnScale p

/-- A check-in whose crowding is the string `valueOf`. -/
def inheritedCrowdingCheckIns : List CheckIn :=
  [sampleCheckIn 1 (.val "valueOf")]

/-- Check-ins in and out of the scale, none naming an inherited property. -/
def sampleCheckIns : List CheckIn :=
  [sampleCheckIn 1 (.val "full"), sampleCheckIn 2 (.val "packed"), sampleCheckIn 3 .null,
    sampleCheckIn 4 (.val "empty")]

/-- A check-in on the scale whose timestamp is no valid date. -/
def undatedCheckIn : CheckIn :=
  { sampleCheckIn 1 (.val "some") with timestamp := "not-a-date" }

/-- A rendering that knows the timestamp of the sample check-ins only. -/
def renderSample (timestamp : String) : Option String :=
  if timestamp = "2024-01-01T10:00:00" then some "10:00 AM" else none

/-! ## Distance annotation (`spacesWithDistance`) -/

/-- The state `geoCoords` once the position is known. -/
structure GeoCoords where
  lat : ℚ
  lon : ℚ
  deriving DecidableEq

/-- The memo `spacesWithDistance`; `none` is the `null` of `geoCoords`, and `M`
gives the `Math` operations on JavaScript numbers. -/
def spacesWithDistance (M : JsMath JsNum) (geoCoords : Option GeoCoords) (spaces : List Space) :
    List Space :=
  spaces.map (fun space =>
    { space with
      distance :=
        match geoCoords with
        | some g =>
          haversineDistance M (.val (.fin g.lat)) (.val (.fin g.lon))
            space.latitude.toJsNum space.longitude.toJsNum
        | none => .null })

/-- The expression bound to `a` in `haversineDistance`. -/
def haversineTerm {F : Type} (M : JsMath F) (lat1 lon1 lat2 lon2 : F) : F :=
  let toRad := fun deg => M.div (M.mul deg M.PI) (M.lit 180)
  let dLat := toRad (M.sub lat2 lat1)
  let dLon := toRad (M.sub lon2 lon1)
  M.add (M.sq (M.sin (M.div dLat (M.lit 2))))
    (M.mul (M.mul (M.cos (toRad lat1)) (M.cos (toRad lat2)))
      (M.sq (M.sin (M.div dLon (M.lit 2)))))

/-! ## Loading the listing (`fetchSpaces`) and posting a check-in -/

/-- The body of a listing response: `response.json()` rejects with an error of
the given message, or resolves to the payload. -/
inductive ListingBody where
  | unparsable (message : String) : ListingBody
  | payload (spaces : List Space) : ListingBody

/-- The outcome of `fetch(API_URL/spaces)`: the request is rejected with an
error of the given message, or a response arrives. -/
inductive ListingOutcome where
  | rejected (message : String) : ListingOutcome
  | response (ok : Bool) (body : ListingBody) : ListingOutcome

/-- The load failed: the request was rejected or the response is not OK. -/
def ListingOutcome.failed : ListingOutcome → Bool
  | .rejected _ => true
  | .response ok _ => !ok

/-- The state of `App` that loading and submitting touch. -/
structure AppState where
  spaces : List Space
  loading : Bool
  error : Nullable String
  selectedSpaceId : Nullable Int
  isSubmitting : Bool
  lastRefreshedAt : Nullable Nat
  refreshToken : Nat

/-- The test `!selectedSpaceId`: `null`, `undefined` and the number `0` are falsy. -/
def isFalsyId : Nullable Int → Bool
  | .val n => n == 0
  | _ => true

/-- The callback `fetchSpaces`, run to completion on an outcome of the request
at time `now`. -/
def fetchSpaces (outcome : ListingOutcome) (now : Nat) (st : AppState) : AppState :=
  let st := { st with loading := true, error := .null }
  let st :=
    match outcome with
    | .rejected message => { st with error := .val message }
    | .response ok body =>
      if !ok then { st with error := .val "Unable to load study spaces" }
      else
        match body with
        | .unparsable message => { st with error := .val message }
        | .payload payload =>
          let st := { st with spaces := payload }
          let st :=
            match payload with
            | first :: _ =>
              if isFalsyId st.selectedSpaceId then { st with selectedSpaceId := .val first.id }
              else st
            | [] => st
          { st with lastRefreshedAt := .val now, refreshToken := st.refreshToken + 1 }
  { st with loading := false }

/-- The body of a check-in response that is not OK: `response.json()` rejects,
or resolves to an object with or without a `detail`. -/
inductive ErrorBody where
  | unparsable : ErrorBody
  | object (detail : Nullable String) : ErrorBody

/-- The outcome of `fetch(API_URL/check-in)`: the request is rejected with an
error of the given message, or a response arrives. -/
inductive CheckInOutcome where
  | rejected (message : String) : CheckInOutcome
  | response (ok : Bool) (errorBody : ErrorBody) : CheckInOutcome

/-- The submission failed: the request was rejected or the response is not OK. -/
def CheckInOutcome.failed : CheckInOutcome → Bool
  | .rejected _ => true
  | .response ok _ => !ok

/-- The expression `errorBody.detail || "Unable to submit check-in"`, with
`errorBody` the parsed body or `{}` when parsing fails. -/
def errorMessage : ErrorBody → String
  | .object (.val detail) => if detail = "" then "Unable to submit check-in" else detail
  | _ => "Unable to submit check-in"

/-- What one run of `handleSubmitCheckIn` does: the value it resolves to, the
bodies it posts (the form values and `user_id`), what it logs with
`console.error`, and the state of `App` afterwards. -/
structure CheckInRun where
  returned : Bool
  posted : List (Form × Nullable String)
  logged : List String
  state : AppState

/-- The callback `handleSubmitCheckIn`, run to completion on an outcome of the
POST and, when it comes to it, an outcome of the re-fetch of the listing. -/
def handleSubmitCheckIn (userId : Nullable String) (post : CheckInOutcome)
    (listing : ListingOutcome) (now : Nat) (formValues : Form) (st : AppState) : CheckInRun :=
  let st := { st with isSubmitting := true }
  match post with
  | .rejected message =>
    { returned := false, posted := [(formValues, userId)], logged := [message],
      state := { st with isSubmitting := false } }
  | .response ok errorBody =>
    if !ok then
      { returned := false, posted := [(formValues, userId)], logged := [errorMessage errorBody],
        state := { st with isSubmitting := false } }
    else
      let st := fetchSpaces listing now st
      { returned := true, posted := [(formValues, userId)], logged := [],
        state := { st with isSubmitting := false } }

/-- As the specification words it: every failed load leaves one fixed message
in the error state, whatever the failure. -/
def GenericLoadError : Prop :=
  ∃ message : String, ∀ (outcome : ListingOutcome) (now : Nat) (st : AppState),
    outcome.failed = true → (fetchSpaces outcome now st).error = .val message

/-- An initial state of `App`. -/
def initialAppState : AppState :=
  { spaces := [], loading := true, error := .null, selectedSpaceId := .null,
    isSubmitting := false, lastRefreshedAt := .null, refreshToken := 0 }

/-! ## Selecting a space in the check-in form -/

/-- The initial `form` of `CheckInForm`: `space_id` is `defaultSpaceId || ""`. -/
def initialFormOf (defaultSpaceId : Nullable Int) : Form :=
  { space_id := if isFalsyId defaultSpaceId then .empty
      else match defaultSpaceId with
        | .val n => .num n
        | _ => .empty,
    noise_level := "quiet", crowding := "some", outlets_available := "yes", notes := "" }

/-- The effect of `CheckInForm` on `defaultSpaceId`: when it is truthy, it
becomes the `space_id` of the form. -/
def syncDefaultSpace (defaultSpaceId : Nullable Int) (prev : Form) : Form :=
  if isFalsyId defaultSpaceId then prev
  else match defaultSpaceId with
    | .val n => { prev with space_id := .num n }
    | _ => prev

/-- An option of the space dropdown: the placeholder, whose value is `""`, or a
space, whose value is its id written as a string. -/
inductive SelectOption where
  | placeholder : SelectOption
  | space (id : Int) : SelectOption
  deriving DecidableEq

/-- The `onChange` of the space dropdown: `value ? Number(value) : ""`, where a
space's value, a non-empty string, converts back to its id. -/
def selectSpace (choice : SelectOption) (prev : Form) : Form :=
  match choice with
  | .placeholder => { prev with space_id := .empty }
  | .space id => { prev with space_id := .num id }

/-! ## Properties of the filter -/

theorem isQuiet_iff (v : Nullable String) : isQuiet v = true ↔ v = .val "quiet" := by
  cases v <;> simp [isQuiet]

theorem hasOutlets_iff (v : Nullable String) :
    hasOutlets v = true ↔ v = .val "yes" ∨ v = .val "some" := by
  cases v <;> simp [hasOutlets, orEmptyString]

theorem isRecent_iff (v : Nullable ℚ) : isRecent v = true ↔ SpecRecent v := by
  cases v <;> simp [isRecent, orInfinity, JsNum.le, SpecRecent]

theorem passesFilters_iff (filters : Filters) (s : Space) :
    passesFilters filters s = true ↔ SpecKeeps filters s := by
  simp only [passesFilters, SpecKeeps, Bool.and_eq_true, Bool.or_eq_true, Bool.not_eq_true',
    isQuiet_iff, hasOutlets_iff, isRecent_iff, and_assoc]
  cases filters.quietOnly <;> cases filters.outletsOnly <;> cases filters.recentOnly <;> simp

/-- C1. Filtering is monotonic in the toggles: when every toggle enabled in `F`
is enabled in `G`, the list filtered under `G` is a sublist of the list filtered
under `F`, and so is not longer. -/
theorem filteredSpaces_monotone (F G : Filters) (spaces : List Space)
    (hq : F.quietOnly = true → G.quietOnly = true)
    (ho : F.outletsOnly = true → G.outletsOnly = true)
    (hr : F.recentOnly = true → G.recentOnly = true) :
    (filteredSpaces G spaces).Sublist (filteredSpaces F spaces) ∧
      (filteredSpaces G spaces).length ≤ (filteredSpaces F spaces).length := by
  have hsub : (filteredSpaces G spaces).Sublist (filteredSpaces F spaces) := by
    unfold filteredSpaces
    induction spaces with
    | nil => simp
    | cons s rest ih =>
      have himp : passesFilters G s = true → passesFilters F s = true := by
        rw [passesFilters_iff, passesFilters_iff]
        rintro ⟨h1, h2, h3⟩
        exact ⟨fun h => h1 (hq h), fun h => h2 (ho h), fun h => h3 (hr h)⟩
      by_cases hG : passesFilters G s = true
      · rw [List.filter_cons_of_pos hG, List.filter_cons_of_pos (himp hG)]
        exact ih.cons₂ s
      · rw [List.filter_cons_of_neg hG]
        by_cases hF : passesFilters F s = true
        · rw [List.filter_cons_of_pos hF]
          exact ih.cons s
        · rw [List.filter_cons_of_neg hF]
          exact ih
  exact ⟨hsub, hsub.length_le⟩

/-- Witness for C1: enabling `recentOnly` on top of `quietOnly` on the sample
listing. -/
theorem filteredSpaces_monotone_witness :
    (filteredSpaces ⟨true, false, true⟩ sampleSpaces).Sublist
        (filteredSpaces ⟨true, false, false⟩ sampleSpaces) ∧
      (filteredSpaces ⟨true, false, true⟩ sampleSpaces).length ≤
        (filteredSpaces ⟨true, false, false⟩ sampleSpaces).length :=
  filteredSpaces_monotone ⟨true, false, false⟩ ⟨true, false, true⟩ sampleSpaces
    (by decide) (by decide) (by decide)

/-- C6. The filtered list is exactly the spaces that satisfy all enabled
predicates (quiet: `recent_noise_level` is `"quiet"`; outlets: `recent_outlets`
is `"yes"` or `"some"`; recent: `last_updated_minutes` is present and at most
60), in their original relative order, and with all toggles off it is the input
list. -/
theorem filteredSpaces_exact (filters : Filters) (spaces : List Space) :
    filteredSpaces filters spaces = spaces.filter (fun s => decide (SpecKeeps filters s)) ∧
      (filteredSpaces filters spaces).Sublist spaces ∧
      filteredSpaces defaultFilters spaces = spaces := by
  refine ⟨?_, ?_, ?_⟩
  · unfold filteredSpaces
    apply List.filter_congr
    intro s _
    by_cases h : SpecKeeps filters s
    · simp [h, (passesFilters_iff filters s).mpr h]
    · have : ¬ passesFilters filters s = true := fun hp => h ((passesFilters_iff filters s).mp hp)
      simp [h, this]
  · exact List.filter_sublist spaces
  · unfold filteredSpaces
    rw [List.filter_eq_self]
    intro s _
    simp [passesFilters, defaultFilters]

/-! ## Properties of the check-in form -/

/-- C3. With no space selected (`space_id` is `""`), `handleSubmit` makes no call
to `onSubmit`, sets the status to the error "Select a study space." and leaves
every form field unchanged. -/
theorem handleSubmit_no_space (onSubmit : Form → Bool) (form : Form)
    (hempty : form.space_id = .empty) :
    (handleSubmit onSubmit form).calls = [] ∧
      ∀ st : FormState,
        (applyUpdates (handleSubmit onSubmit form).updates st).status =
            some { type := "error", message := "Select a study space." } ∧
          (applyUpdates (handleSubmit onSubmit form).updates st).form = st.form := by
  simp [handleSubmit, hempty, SpaceIdValue.isFalsy, applyUpdates, StateUpdate.apply]

/-- Witness for C3: the initial form, whose selection is empty. -/
theorem handleSubmit_no_space_witness :
    initialForm.space_id = .empty ∧
      (handleSubmit (fun _ => true) initialForm).calls = [] ∧
      ∀ st : FormState,
        (applyUpdates (handleSubmit (fun _ => true) initialForm).updates st).status =
            some { type := "error", message := "Select a study space." } ∧
          (applyUpdates (handleSubmit (fun _ => true) initialForm).updates st).form = st.form :=
  ⟨rfl, handleSubmit_no_space (fun _ => true) initialForm rfl⟩

/-- With a space of non-zero id selected and an `onSubmit` that reports success,
`handleSubmit` calls `onSubmit` once with the form, sets `notes` to the empty
string, leaves `space_id`, `noise_level`, `crowding` and `outlets_available`
unchanged, and sets a success status. -/
theorem handleSubmit_success (onSubmit : Form → Bool) (form : Form) (n : Int)
    (hsel : form.space_id = .num n) (hn : n ≠ 0) (hok : onSubmit form = true) :
    (handleSubmit onSubmit form).calls = [(form, true)] ∧
      ∀ st : FormState,
        (applyUpdates (handleSubmit onSubmit form).updates st).form.notes = "" ∧
          (applyUpdates (handleSubmit onSubmit form).updates st).form.space_id =
            st.form.space_id ∧
          (applyUpdates (handleSubmit onSubmit form).updates st).form.noise_level =
            st.form.noise_level ∧
          (applyUpdates (handleSubmit onSubmit form).updates st).form.crowding =
            st.form.crowding ∧
          (applyUpdates (handleSubmit onSubmit form).updates st).form.outlets_available =
            st.form.outlets_available ∧
          (applyUpdates (handleSubmit onSubmit form).updates st).status =
            some { type := "success", message := "Thanks for keeping StudySpaces fresh!" } := by
  have hf : form.space_id.isFalsy = false := by
    simp [hsel, SpaceIdValue.isFalsy, hn]
  constructor
  · simp [handleSubmit, hf, hok]
  · intro st
    simp [handleSubmit, hf, hok, applyUpdates, StateUpdate.apply]

/-- C10. With the space of id 0 selected in the sample form and an `onSubmit`
that reports success whenever it is called, `handleSubmit` does not call it,
keeps the notes and sets the error "Select a study space." instead of a success
status. -/
theorem handleSubmit_success_id_zero :
    (selectSpace (.space 0) sampleForm).space_id = .num 0 ∧
      (handleSubmit (fun _ => true) (selectSpace (.space 0) sampleForm)).calls = [] ∧
      (applyUpdates (handleSubmit (fun _ => true) (selectSpace (.space 0) sampleForm)).updates
          { form := selectSpace (.space 0) sampleForm, status := none }).form.notes =
        "windows open" ∧
      (applyUpdates (handleSubmit (fun _ => true) (selectSpace (.space 0) sampleForm)).updates
          { form := selectSpace (.space 0) sampleForm, status := none }).status =
        some { type := "error", message := "Select a study space." } := by
  refine ⟨rfl, ?_, ?_, ?_⟩ <;>
    simp [handleSubmit, selectSpace, sampleForm, SpaceIdValue.isFalsy, applyUpdates,
      StateUpdate.apply]

/-! ## Properties of the distance -/

theorem isNullish_iff {α : Type} (v : Nullable α) :
    v.isNullish = true ↔ v = .null ∨ v = .undefined := by
  cases v <;> simp [Nullable.isNullish]

/-- C4. `haversineDistance` returns `null` if and only if at least one of its
four arguments is `null` or `undefined`; on four numbers, the number `0`
included, it returns a number. -/
theorem haversineDistance_null_iff {F : Type} (M : JsMath F)
    (lat1 lon1 lat2 lon2 : Nullable F) :
    (haversineDistance M lat1 lon1 lat2 lon2 = .null ↔
        (lat1 = .null ∨ lat1 = .undefined) ∨ (lon1 = .null ∨ lon1 = .undefined) ∨
          (lat2 = .null ∨ lat2 = .undefined) ∨ (lon2 = .null ∨ lon2 = .undefined)) ∧
      (∀ a b c d : F,
        haversineDistance M (.val a) (.val b) (.val c) (.val d) =
          .val (haversineMiles M a b c d)) ∧
      haversineDistance M (.val (M.lit 0)) (.val (M.lit 0)) (.val (M.lit 0)) (.val (M.lit 0)) ≠
        .null := by
  refine ⟨?_, ?_, ?_⟩
  · cases lat1 <;> cases lon1 <;> cases lat2 <;> cases lon2 <;>
      simp [haversineDistance, Nullable.isNullish]
  · intro a b c d
    simp [haversineDistance, Nullable.isNullish]
  · simp [haversineDistance, Nullable.isNullish]

theorem haversineMiles_real_self (lat lon : ℝ) : haversineMiles realMath lat lon lat lon = 0 := by
  simp [haversineMiles, realMath]
  have harg : Complex.arg ⟨1, 0⟩ = 0 := by
    have h1 : (⟨1, 0⟩ : ℂ) = 1 := by
      apply Complex.ext <;> simp
    rw [h1, Complex.arg_one]
  rw [harg]
  norm_num

/-- C5. Over the real numbers the distance from a point to itself is zero:
`haversineDistance(lat, lon, lat, lon) = 0` for every latitude and longitude,
and in particular `haversineDistance(0, 0, 0, 0) = 0`. -/
theorem haversineDistance_self :
    haversineDistance realMath (.val 0) (.val 0) (.val 0) (.val 0) = .val 0 ∧
      ∀ lat lon : ℝ,
        haversineDistance realMath (.val lat) (.val lon) (.val lat) (.val lon) = .val 0 := by
  have h : ∀ lat lon : ℝ,
      haversineDistance realMath (.val lat) (.val lon) (.val lat) (.val lon) = .val 0 := by
    intro lat lon
    simp [haversineDistance, Nullable.isNullish, haversineMiles_real_self]
  exact ⟨h 0 0, h⟩

/-! ## Properties of the trend data -/

/-- C8. Eleven check-ins, each with a crowding of the scale and a timestamp that
renders, give eleven points of trend data: the list is not cut to its last ten. -/
theorem trendData_eleven (render : String → String) :
    elevenCheckIns.length = 11 ∧
      (trendData (fun t => some (render t)) elevenCheckIns).map List.length = some 11 := by
  simp [trendData, mapThrowing, elevenCheckIns, trendPoint, sampleCheckIn,
    getProperty, CROWDING_POINTS, toPropertyKey, List.lookup, Lookup.isFalsy, List.range,
    List.range.loop]

/-! ## Properties of the sort -/

theorem compareSpaces_eq_sub (sortBy : String) (a b : Space) :
    compareSpaces sortBy a b = (sortKey sortBy a).sub (sortKey sortBy b) := by
  unfold compareSpaces sortKey
  split_ifs <;> rfl

theorem jsNum_le_trans {x y z : JsNum} (hxy : x.le y = true) (hyz : y.le z = true) :
    x.le z = true := by
  cases x <;> cases y <;> cases z <;> simp_all [JsNum.le]
  exact hxy.trans hyz

theorem isPos_sub_of_ranked {x y : JsNum} (hx : x = .posInf ∨ ∃ q, x = .fin q)
    (hy : y = .posInf ∨ ∃ q, y = .fin q) :
    ((match x.sub y with
      | .nan => JsNum.fin 0
      | v => v).isPos = true → y.le x = true) ∧
    ((match x.sub y with
      | .nan => JsNum.fin 0
      | v => v).isPos = false → x.le y = true) := by
  rcases hx with rfl | ⟨a, rfl⟩ <;> rcases hy with rfl | ⟨b, rfl⟩ <;>
    simp [JsNum.sub, JsNum.isPos, JsNum.le]
  exact le_of_lt

theorem insertSorted_perm {α : Type} (cmp : α → α → JsNum) (x : α) (l : List α) :
    (insertSorted cmp x l).Perm (x :: l) := by
  induction l with
  | nil => simp [insertSorted]
  | cons y ys ih =>
    unfold insertSorted
    split_ifs
    · exact (ih.cons y).trans (List.Perm.swap x y ys)
    · exact List.Perm.refl _

theorem arraySort_perm {α : Type} (cmp : α → α → JsNum) (l : List α) :
    (arraySort cmp l).Perm l := by
  induction l with
  | nil => simp [arraySort]
  | cons x xs ih =>
    unfold arraySort
    exact (insertSorted_perm cmp x _).trans (ih.cons x)

theorem specCrowdingRank_cases (v : Nullable String) :
    (v = .val "empty" ∧ specCrowdingRank v = .fin 0) ∨
      (v = .val "some" ∧ specCrowdingRank v = .fin 1) ∨
      (v = .val "full" ∧ specCrowdingRank v = .fin 2) ∨
      (v ≠ .val "empty" ∧ v ≠ .val "some" ∧ v ≠ .val "full" ∧ specCrowdingRank v = .posInf) := by
  unfold specCrowdingRank
  split <;> simp_all

theorem specNoiseRank_cases (v : Nullable String) :
    (v = .val "quiet" ∧ specNoiseRank v = .fin 0) ∨
      (v = .val "moderate" ∧ specNoiseRank v = .fin 1) ∨
      (v = .val "loud" ∧ specNoiseRank v = .fin 2) ∨
      (v ≠ .val "quiet" ∧ v ≠ .val "moderate" ∧ v ≠ .val "loud" ∧
        specNoiseRank v = .posInf) := by
  unfold specNoiseRank
  split <;> simp_all

theorem specRank_ranked (sortBy : String) (s : Space) (h : rankResolved sortBy s) :
    specRank sortBy s = .posInf ∨ ∃ q, specRank sortBy s = .fin q := by
  unfold specRank
  split_ifs with h1
  · cases hv : s.distance with
    | undefined => simp [numberOrInfinity]
    | null => simp [numberOrInfinity]
    | val x =>
      obtain ⟨q, rfl⟩ := h.1 h1 x hv
      simp [numberOrInfinity]
  · rcases specCrowdingRank_cases s.recent_crowding with
      ⟨_, h⟩ | ⟨_, h⟩ | ⟨_, h⟩ | ⟨_, _, _, h⟩ <;> simp [h]
  · rcases specNoiseRank_cases s.recent_noise_level with
      ⟨_, h⟩ | ⟨_, h⟩ | ⟨_, h⟩ | ⟨_, _, _, h⟩ <;> simp [h]
  · cases s.last_updated_minutes <;> simp [orInfinity, Nullable.isNullish]

theorem keyMissing_iff (sortBy : String) (s : Space) (h : rankResolved sortBy s) :
    keyMissing sortBy s = true ↔ specRank sortBy s = .posInf := by
  unfold specRank keyMissing
  split_ifs with h1
  · cases hv : s.distance with
    | undefined => simp [numberOrInfinity, Nullable.isNullish]
    | null => simp [numberOrInfinity, Nullable.isNullish]
    | val x =>
      obtain ⟨q, rfl⟩ := h.1 h1 x hv
      simp [numberOrInfinity, Nullable.isNullish]
  · rcases specCrowdingRank_cases s.recent_crowding with
      ⟨hv, h⟩ | ⟨hv, h⟩ | ⟨hv, h⟩ | ⟨h1, h2, h3, h⟩
    · rw [h, hv]
      simp [inRankTable]
    · rw [h, hv]
      simp [inRankTable]
    · rw [h, hv]
      simp [inRankTable]
    · rw [h]
      cases hv : s.recent_crowding <;> simp_all [inRankTable]
  · rcases specNoiseRank_cases s.recent_noise_level with
      ⟨hv, h⟩ | ⟨hv, h⟩ | ⟨hv, h⟩ | ⟨h1, h2, h3, h⟩
    · rw [h, hv]
      simp [inRankTable]
    · rw [h, hv]
      simp [inRankTable]
    · rw [h, hv]
      simp [inRankTable]
    · rw [h]
      cases hv : s.recent_noise_level <;> simp_all [inRankTable]
  · cases s.last_updated_minutes <;> simp [orInfinity, Nullable.isNullish]

theorem getProperty_of_resolved (table : List (String × ℚ)) (v : Nullable String)
    (h : namesNoInheritedProperty v) :
    getProperty table v =
      match table.lookup (toPropertyKey v) with
      | some n => .own n
      | none => .undefined := by
  unfold getProperty
  have hc : objectPrototypeKeys.contains (toPropertyKey v) = false := by
    simpa [namesNoInheritedProperty] using h
  rw [hc]
  rfl

theorem crowding_key_eq (v : Nullable String) (h : namesNoInheritedProperty v) :
    (getProperty CROWDING_ORDER v).orInfinityNumber = specCrowdingRank v := by
  rw [getProperty_of_resolved _ _ h]
  rcases specCrowdingRank_cases v with ⟨hv, hr⟩ | ⟨hv, hr⟩ | ⟨hv, hr⟩ | ⟨h1, h2, h3, hv⟩
  · rw [hr, hv]
    simp [CROWDING_ORDER, toPropertyKey, List.lookup, Lookup.orInfinityNumber]
  · rw [hr, hv]
    simp [CROWDING_ORDER, toPropertyKey, List.lookup, Lookup.orInfinityNumber]
  · rw [hr, hv]
    simp [CROWDING_ORDER, toPropertyKey, List.lookup, Lookup.orInfinityNumber]
  · rw [hv]
    cases v with
    | undefined => simp [CROWDING_ORDER, toPropertyKey, List.lookup, Lookup.orInfinityNumber]
    | null => simp [CROWDING_ORDER, toPropertyKey, List.lookup, Lookup.orInfinityNumber]
    | val t =>
      have e1 : (t == "empty") = false := by simpa using fun e => h1 (by rw [e])
      have e2 : (t == "some") = false := by simpa using fun e => h2 (by rw [e])
      have e3 : (t == "full") = false := by simpa using fun e => h3 (by rw [e])
      simp [CROWDING_ORDER, toPropertyKey, List.lookup, Lookup.orInfinityNumber, e1, e2, e3]

theorem noise_key_eq (v : Nullable String) (h : namesNoInheritedProperty v) :
    (getProperty NOISE_ORDER v).orInfinityNumber = specNoiseRank v := by
  rw [getProperty_of_resolved _ _ h]
  rcases specNoiseRank_cases v with ⟨hv, hr⟩ | ⟨hv, hr⟩ | ⟨hv, hr⟩ | ⟨h1, h2, h3, hv⟩
  · rw [hr, hv]
    simp [NOISE_ORDER, toPropertyKey, List.lookup, Lookup.orInfinityNumber]
  · rw [hr, hv]
    simp [NOISE_ORDER, toPropertyKey, List.lookup, Lookup.orInfinityNumber]
  · rw [hr, hv]
    simp [NOISE_ORDER, toPropertyKey, List.lookup, Lookup.orInfinityNumber]
  · rw [hv]
    cases v with
    | undefined => simp [NOISE_ORDER, toPropertyKey, List.lookup, Lookup.orInfinityNumber]
    | null => simp [NOISE_ORDER, toPropertyKey, List.lookup, Lookup.orInfinityNumber]
    | val t =>
      have e1 : (t == "quiet") = false := by simpa using fun e => h1 (by rw [e])
      have e2 : (t == "moderate") = false := by simpa using fun e => h2 (by rw [e])
      have e3 : (t == "loud") = false := by simpa using fun e => h3 (by rw [e])
      simp [NOISE_ORDER, toPropertyKey, List.lookup, Lookup.orInfinityNumber, e1, e2, e3]

theorem sortKey_eq_specRank (sortBy : String) (s : Space) (h : rankResolved sortBy s) :
    sortKey sortBy s = specRank sortBy s := by
  unfold sortKey specRank
  split_ifs with h1 h2 h3
  · rfl
  · exact crowding_key_eq _ (h.2.1 h2)
  · exact noise_key_eq _ (h.2.2 h3)
  · rfl

theorem mem_insertSorted {α : Type} (cmp : α → α → JsNum) (x z : α) (l : List α) :
    z ∈ insertSorted cmp x l ↔ z = x ∨ z ∈ l := by
  rw [(insertSorted_perm cmp x l).mem_iff, List.mem_cons]

theorem insertSorted_pairwise (sortBy : String) (x : Space) (l : List Space)
    (hx : rankResolved sortBy x) (hl : ∀ s ∈ l, rankResolved sortBy s)
    (hs : RankNondecreasing sortBy l) :
    RankNondecreasing sortBy (insertSorted (compareSpaces sortBy) x l) := by
  unfold RankNondecreasing at hs ⊢
  induction l with
  | nil => simp [insertSorted]
  | cons y ys ih =>
    have hy : rankResolved sortBy y := hl y (List.mem_cons_self y ys)
    have hys : ∀ s ∈ ys, rankResolved sortBy s :=
      fun s hmem => hl s (List.mem_cons_of_mem y hmem)
    have hsign := isPos_sub_of_ranked (specRank_ranked sortBy x hx) (specRank_ranked sortBy y hy)
    rw [List.pairwise_cons] at hs
    unfold insertSorted
    have hcmp : sortCompare (compareSpaces sortBy) x y =
        (match (specRank sortBy x).sub (specRank sortBy y) with
          | .nan => JsNum.fin 0
          | v => v) := by
      unfold sortCompare
      rw [compareSpaces_eq_sub, sortKey_eq_specRank sortBy x hx, sortKey_eq_specRank sortBy y hy]
    rw [hcmp]
    split_ifs with hpos
    · rw [List.pairwise_cons]
      refine ⟨?_, ih hys hs.2⟩
      intro z hz
      rcases (mem_insertSorted _ x z ys).mp hz with rfl | hz
      · exact hsign.1 hpos
      · exact hs.1 z hz
    · rw [List.pairwise_cons]
      have hxy : (specRank sortBy x).le (specRank sortBy y) = true :=
        hsign.2 (by simpa using hpos)
      refine ⟨?_, List.pairwise_cons.mpr hs⟩
      intro z hz
      rcases List.mem_cons.mp hz with rfl | hz
      · exact hxy
      · exact jsNum_le_trans hxy (hs.1 z hz)

theorem arraySort_rankNondecreasing (sortBy : String) (l : List Space)
    (hl : ∀ s ∈ l, rankResolved sortBy s) :
    RankNondecreasing sortBy (arraySort (compareSpaces sortBy) l) := by
  induction l with
  | nil => simp [arraySort, RankNondecreasing]
  | cons x xs ih =>
    unfold arraySort
    apply insertSorted_pairwise
    · exact hl x (List.mem_cons_self x xs)
    · intro s hs
      exact hl s (List.mem_cons_of_mem x ((arraySort_perm _ xs).mem_iff.mp hs))
    · exact ih (fun s hs => hl s (List.mem_cons_of_mem x hs))

/-- Where every space has a well defined value under the sort key, the sorted
list is non-decreasing in the rank of the key. -/
theorem sortedSpaces_rankNondecreasing (sortBy : String) (spaces : List Space)
    (h : RanksResolved sortBy spaces) : RankNondecreasing sortBy (sortedSpaces sortBy spaces) :=
  arraySort_rankNondecreasing sortBy spaces h

/-- The sorted list is a permutation of the list, for every list and sort key. -/
theorem sortedSpaces_perm (sortBy : String) (spaces : List Space) :
    (sortedSpaces sortBy spaces).Perm spaces :=
  arraySort_perm _ spaces

/-- Where every space has a well defined value under the sort key, no space
whose value is missing comes before a space whose value is present. -/
theorem sortedSpaces_missing_last (sortBy : String) (spaces : List Space)
    (h : RanksResolved sortBy spaces) : MissingLast sortBy (sortedSpaces sortBy spaces) := by
  have hs := sortedSpaces_rankNondecreasing sortBy spaces h
  have hmem : ∀ s ∈ sortedSpaces sortBy spaces, rankResolved sortBy s :=
    fun s hs => h s ((sortedSpaces_perm sortBy spaces).mem_iff.mp hs)
  unfold RankNondecreasing at hs
  unfold MissingLast
  refine hs.imp_of_mem ?_
  intro a b ha hb hab hmiss
  have hra : specRank sortBy a = .posInf := (keyMissing_iff sortBy a (hmem a ha)).mp hmiss.1
  have hrb : ¬ specRank sortBy b = .posInf := by
    intro hrb
    have := (keyMissing_iff sortBy b (hmem b hb)).mpr hrb
    rw [hmiss.2] at this
    exact Bool.false_ne_true this
  rcases specRank_ranked sortBy b (hmem b hb) with hb' | ⟨q, hq⟩
  · exact hrb hb'
  · rw [hra, hq] at hab
    simp [JsNum.le] at hab

/-- The sample listing has a well defined value under every sort key. -/
theorem sampleSpaces_resolved (sortBy : String) : RanksResolved sortBy sampleSpaces := by
  intro s hs
  simp only [sampleSpaces, List.mem_cons, List.mem_singleton, List.not_mem_nil, or_false] at hs
  rcases hs with rfl | rfl | rfl <;>
    refine ⟨fun _ => ?_, fun _ => ?_, fun _ => ?_⟩ <;>
    simp [sampleSpace, finiteOrMissing, namesNoInheritedProperty, toPropertyKey,
      objectPrototypeKeys]

/-- C2. Sorting places a missing value before a present one on two listings.
Sorted by distance, a space without coordinates, whose distance is `null`, stays
before a space for which `haversineDistance` returned `NaN`. Sorted by crowding,
a space whose crowding is the string `constructor`, which is not in the rank
table, stays before a space whose crowding is `empty`. On both listings the
comparator is consistent (every comparison is `NaN`, read as 0). -/
theorem sortedSpaces_missing_not_last :
    (sortedSpaces "distance" nanDistanceSpaces = nanDistanceSpaces ∧
        ¬ MissingLast "distance" (sortedSpaces "distance" nanDistanceSpaces)) ∧
      (sortedSpaces "crowding" inheritedCrowdingSpaces = inheritedCrowdingSpaces ∧
        ¬ MissingLast "crowding" (sortedSpaces "crowding" inheritedCrowdingSpaces)) := by
  have hd : sortedSpaces "distance" nanDistanceSpaces = nanDistanceSpaces := by
    simp [sortedSpaces, nanDistanceSpaces, sampleSpace, arraySort, insertSorted, sortCompare,
      compareSpaces, numberOrInfinity, JsNum.sub, JsNum.isPos]
  have hc : sortedSpaces "crowding" inheritedCrowdingSpaces = inheritedCrowdingSpaces := by
    simp [sortedSpaces, inheritedCrowdingSpaces, sampleSpace, arraySort, insertSorted,
      sortCompare, compareSpaces, JsNum.sub, JsNum.isPos, getProperty, CROWDING_ORDER,
      toPropertyKey, objectPrototypeKeys, Lookup.orInfinityNumber, List.lookup]
  refine ⟨⟨hd, ?_⟩, ⟨hc, ?_⟩⟩
  · rw [hd]
    simp [MissingLast, nanDistanceSpaces, sampleSpace, keyMissing, Nullable.isNullish]
  · rw [hc]
    simp [MissingLast, inheritedCrowdingSpaces, sampleSpace, keyMissing, inRankTable]

/-- C7. The sorted list is not non-decreasing in the rank of the key on two
listings. Sorted by distance, a space for which `haversineDistance` returned
`NaN` stays before a space 3.5 miles away. Sorted by noise, a space whose noise
level is the string `toString`, which has no rank, stays before a `quiet` space.
On both listings the comparator is consistent (every comparison is `NaN`, read
as 0). -/
theorem sortedSpaces_not_nondecreasing :
    (sortedSpaces "distance" nanDistanceFirstSpaces = nanDistanceFirstSpaces ∧
        ¬ RankNondecreasing "distance" (sortedSpaces "distance" nanDistanceFirstSpaces)) ∧
      (sortedSpaces "noise" inheritedNoisePair = inheritedNoisePair ∧
        ¬ RankNondecreasing "noise" (sortedSpaces "noise" inheritedNoisePair)) := by
  have hd : sortedSpaces "distance" nanDistanceFirstSpaces = nanDistanceFirstSpaces := by
    simp [sortedSpaces, nanDistanceFirstSpaces, sampleSpace, arraySort, insertSorted,
      sortCompare, compareSpaces, numberOrInfinity, JsNum.sub, JsNum.isPos]
  have hn : sortedSpaces "noise" inheritedNoisePair = inheritedNoisePair := by
    simp [sortedSpaces, inheritedNoisePair, sampleSpace, arraySort, insertSorted,
      sortCompare, compareSpaces, JsNum.sub, JsNum.isPos, getProperty, NOISE_ORDER,
      toPropertyKey, objectPrototypeKeys, Lookup.orInfinityNumber, List.lookup]
  refine ⟨⟨hd, ?_⟩, ⟨hn, ?_⟩⟩
  · rw [hd]
    simp [RankNondecreasing, nanDistanceFirstSpaces, sampleSpace, specRank, numberOrInfinity,
      JsNum.le]
  · rw [hn]
    simp [RankNondecreasing, inheritedNoisePair, sampleSpace, specRank, specNoiseRank,
      JsNum.le]

/-! ## Properties of the trend data, continued -/

theorem specPoint_onScale (render : String → String) (c : CheckIn) (p : TrendPoint)
    (h : specPoint render c = some p) : OnScale p := by
  unfold specPoint at h
  split at h <;> simp at h <;> subst h <;> simp [OnScale]

theorem specPoint_cases (render : String → String) (c : CheckIn) :
    (c.crowding = .val "empty" ∧
        specPoint render c = some { label := render c.timestamp, crowding := .own 1 }) ∨
      (c.crowding = .val "some" ∧
        specPoint render c = some { label := render c.timestamp, crowding := .own 2 }) ∨
      (c.crowding = .val "full" ∧
        specPoint render c = some { label := render c.timestamp, crowding := .own 3 }) ∨
      (c.crowding ≠ .val "empty" ∧ c.crowding ≠ .val "some" ∧ c.crowding ≠ .val "full" ∧
        specPoint render c = none) := by
  unfold specPoint
  split <;> simp_all

theorem trendPoint_eq_specPoint (render : String → String) (c : CheckIn)
    (h : namesNoInheritedProperty c.crowding) :
    trendPoint (fun t => some (render t)) c = some (specPoint render c) := by
  unfold trendPoint
  rw [getProperty_of_resolved _ _ h]
  rcases specPoint_cases render c with ⟨hc, hr⟩ | ⟨hc, hr⟩ | ⟨hc, hr⟩ | ⟨h1, h2, h3, hr⟩
  · rw [hr, hc]
    simp [CROWDING_POINTS, toPropertyKey, List.lookup, Lookup.isFalsy]
  · rw [hr, hc]
    simp [CROWDING_POINTS, toPropertyKey, List.lookup, Lookup.isFalsy]
  · rw [hr, hc]
    simp [CROWDING_POINTS, toPropertyKey, List.lookup, Lookup.isFalsy]
  · rw [hr]
    cases hc : c.crowding with
    | undefined => simp [CROWDING_POINTS, toPropertyKey, List.lookup, Lookup.isFalsy]
    | null => simp [CROWDING_POINTS, toPropertyKey, List.lookup, Lookup.isFalsy]
    | val t =>
      have e1 : (t == "empty") = false := by simpa using fun e => h1 (by rw [hc, e])
      have e2 : (t == "some") = false := by simpa using fun e => h2 (by rw [hc, e])
      have e3 : (t == "full") = false := by simpa using fun e => h3 (by rw [hc, e])
      simp [CROWDING_POINTS, toPropertyKey, List.lookup, Lookup.isFalsy, e1, e2, e3]

theorem mapThrowing_eq_map {α β : Type} (f : α → Option β) (g : α → β) (l : List α)
    (h : ∀ x ∈ l, f x = some (g x)) : mapThrowing f l = some (l.map g) := by
  induction l with
  | nil => rfl
  | cons x xs ih =>
    unfold mapThrowing
    rw [h x (List.mem_cons_self x xs), ih (fun y hy => h y (List.mem_cons_of_mem x hy))]
    rfl

/-- A check-in on the scale whose timestamp is no valid date makes the memo
throw: `trendData` has no value. -/
theorem trendData_throws : trendData renderSample [undatedCheckIn] = none := by
  simp [trendData, mapThrowing, trendPoint, undatedCheckIn, sampleCheckIn, renderSample,
    getProperty, CROWDING_POINTS, toPropertyKey, List.lookup, Lookup.isFalsy]

/-- C9. A check-in whose crowding is the string `valueOf`, with a timestamp
that renders, is not dropped: its point carries the function inherited from
`Object.prototype`, not 1, 2 or 3, where the mapping to the 3-point scale gives
no point at all. -/
theorem trendData_off_scale :
    trendData (fun t => some t) inheritedCrowdingCheckIns =
        some [{ label := "2024-01-01T10:00:00", crowding := .inherited "valueOf" }] ∧
      specTrendData id inheritedCrowdingCheckIns = [] ∧
      ¬ TrendAsSpecified id inheritedCrowdingCheckIns := by
  have h : trendData (fun t => some t) inheritedCrowdingCheckIns =
      some [{ label := "2024-01-01T10:00:00", crowding := .inherited "valueOf" }] := by
    simp [trendData, mapThrowing, inheritedCrowdingCheckIns, trendPoint,
      sampleCheckIn, getProperty, CROWDING_POINTS, toPropertyKey, List.lookup, Lookup.isFalsy,
      objectPrototypeKeys]
  refine ⟨h, ?_, ?_⟩
  · simp [specTrendData, inheritedCrowdingCheckIns, sampleCheckIn, specPoint]
  · rintro ⟨points, hp, _, hscale⟩
    simp only [id] at hp
    rw [h] at hp
    cases hp
    have := hscale _ (List.mem_singleton_self _)
    simp [OnScale] at this

/-- Where no check-in's crowding names a property inherited from
`Object.prototype` and every timestamp renders, `trendData` is the reversed list
with each check-in mapped to its point of the scale `empty -> 1`, `some -> 2`,
`full -> 3`, the other check-ins dropped, and every point is on the scale. -/
theorem trendData_as_specified (render : String → String) (recentCheckins : List CheckIn)
    (h : ∀ c ∈ recentCheckins, namesNoInheritedProperty c.crowding) :
    TrendAsSpecified render recentCheckins := by
  refine ⟨specTrendData render recentCheckins, ?_, rfl, ?_⟩
  · have hmap := mapThrowing_eq_map (trendPoint (fun t => some (render t))) (specPoint render)
      recentCheckins.reverse
      (fun c hc => trendPoint_eq_specPoint render c (h c (List.mem_reverse.mp hc)))
    simp only [trendData, specTrendData, hmap, List.filterMap_map]
    rfl
  · intro p hp
    unfold specTrendData at hp
    obtain ⟨c, _, hc⟩ := List.mem_filterMap.mp hp
    exact specPoint_onScale render c p hc

/-- The sample check-ins, two of them off the scale, chart as specified. -/
theorem sampleCheckIns_as_specified : TrendAsSpecified id sampleCheckIns :=
  trendData_as_specified id sampleCheckIns
    (by simp [sampleCheckIns, sampleCheckIn, namesNoInheritedProperty, toPropertyKey,
      objectPrototypeKeys])

/-! ## Properties of loading and submitting -/

/-- C11. For every failed check-in submission (a rejected request, or a response
that is not OK, whatever its body), `handleSubmitCheckIn` returns `false`, and
the form that made the submission then shows the fixed message "Something went
wrong. Try again." with every form field, `notes` included, left unchanged. -/
theorem handleSubmitCheckIn_failure (userId : Nullable String) (post : CheckInOutcome)
    (listing : ListingOutcome) (now : Nat) (app : AppState) (form : Form)
    (hfail : post.failed = true) :
    (handleSubmitCheckIn userId post listing now form app).returned = false ∧
      ∀ st : FormState,
        (handleSubmit (fun f => (handleSubmitCheckIn userId post listing now f app).returned)
            form).calls ≠ [] →
          (applyUpdates
              (handleSubmit (fun f => (handleSubmitCheckIn userId post listing now f app).returned)
                form).updates st).status =
              some { type := "error", message := "Something went wrong. Try again." } ∧
            (applyUpdates
              (handleSubmit (fun f => (handleSubmitCheckIn userId post listing now f app).returned)
                form).updates st).form = st.form := by
  have hret : ∀ f : Form, (handleSubmitCheckIn userId post listing now f app).returned = false := by
    intro f
    cases post with
    | rejected message => simp [handleSubmitCheckIn]
    | response ok errorBody =>
      have hok : ok = false := by simpa [CheckInOutcome.failed] using hfail
      simp [handleSubmitCheckIn, hok]
  refine ⟨hret form, ?_⟩
  intro st hcalls
  unfold handleSubmit at hcalls ⊢
  by_cases hf : form.space_id.isFalsy = true
  · simp [hf] at hcalls
  · simp [hf, hret form, applyUpdates, StateUpdate.apply]

/-- Witness for C11: the sample form, posted to a server that answers with a
`detail` message. -/
theorem handleSubmitCheckIn_failure_witness :
    (CheckInOutcome.response false (.object (.val "space not found"))).failed = true ∧
      (handleSubmitCheckIn (.val "web-1") (.response false (.object (.val "space not found")))
          (.rejected "offline") 0 sampleForm initialAppState).returned = false :=
  ⟨rfl,
    (handleSubmitCheckIn_failure (.val "web-1") (.response false (.object (.val "space not found")))
      (.rejected "offline") 0 initialAppState sampleForm rfl).1⟩

/-- C12, as stated, fails: a rejected request leaves the message of its own
error in the error state, a response that is not OK leaves "Unable to load study
spaces", so no single message covers every failed load. -/
theorem fetchSpaces_error_not_generic :
    (fetchSpaces (.rejected "Failed to fetch") 0 initialAppState).error =
        .val "Failed to fetch" ∧
      (fetchSpaces (.response false (.payload [])) 0 initialAppState).error =
        .val "Unable to load study spaces" ∧
      ¬ GenericLoadError := by
  refine ⟨rfl, rfl, ?_⟩
  rintro ⟨message, h⟩
  have h1 := h (.rejected "Failed to fetch") 0 initialAppState rfl
  have h2 := h (.response false (.payload [])) 0 initialAppState rfl
  simp [fetchSpaces] at h1 h2
  rw [← h1] at h2
  exact absurd h2 (by decide)

/-- C12, amended. A failed load by `fetchSpaces` leaves in the error state the
fixed message "Unable to load study spaces" when the response is not OK, whatever
its body, and the message of the error itself when the request is rejected; in
both cases the listing is left as it was and loading ends. -/
theorem fetchSpaces_error (now : Nat) (st : AppState) :
    (∀ body : ListingBody,
        (fetchSpaces (.response false body) now st).error = .val "Unable to load study spaces" ∧
          (fetchSpaces (.response false body) now st).spaces = st.spaces ∧
          (fetchSpaces (.response false body) now st).loading = false) ∧
      (∀ message : String,
        (fetchSpaces (.rejected message) now st).error = .val message ∧
          (fetchSpaces (.rejected message) now st).spaces = st.spaces ∧
          (fetchSpaces (.rejected message) now st).loading = false) := by
  constructor
  · intro body
    simp [fetchSpaces]
  · intro message
    simp [fetchSpaces]

/-! ## Properties of the distance annotation -/

theorem arraySort_eq_self {α : Type} (cmp : α → α → JsNum) (l : List α)
    (h : ∀ a ∈ l, ∀ b ∈ l, (sortCompare cmp a b).isPos = false) : arraySort cmp l = l := by
  induction l with
  | nil => rfl
  | cons x xs ih =>
    have hxs : arraySort cmp xs = xs :=
      ih (fun a ha b hb => h a (List.mem_cons_of_mem x ha) b (List.mem_cons_of_mem x hb))
    unfold arraySort
    rw [hxs]
    cases xs with
    | nil => rfl
    | cons y ys =>
      unfold insertSorted
      have := h x (List.mem_cons_self x _) y (List.mem_cons_of_mem x (List.mem_cons_self y ys))
      simp [this]

/-- C13. With no user coordinates (`geoCoords` is `null`), `spacesWithDistance` is
the listing with the `distance` of every space set to `null` and every other
field unchanged, and sorting the filtered list by distance returns it in its
original order. -/
theorem spacesWithDistance_no_coords (M : JsMath JsNum) (filters : Filters)
    (spaces : List Space) :
    spacesWithDistance M none spaces = spaces.map (fun s => { s with distance := .null }) ∧
      (∀ s ∈ spacesWithDistance M none spaces, s.distance = .null) ∧
      sortedSpaces "distance" (filteredSpaces filters (spacesWithDistance M none spaces)) =
        filteredSpaces filters (spacesWithDistance M none spaces) := by
  have hnull : ∀ s ∈ spacesWithDistance M none spaces, s.distance = .null := by
    intro s hs
    unfold spacesWithDistance at hs
    obtain ⟨t, _, rfl⟩ := List.mem_map.mp hs
    rfl
  refine ⟨rfl, hnull, ?_⟩
  unfold sortedSpaces
  apply arraySort_eq_self
  intro a ha b hb
  have hda : a.distance = .null := hnull a (List.mem_filter.mp ha).1
  have hdb : b.distance = .null := hnull b (List.mem_filter.mp hb).1
  simp [sortCompare, compareSpaces, hda, hdb, numberOrInfinity, JsNum.sub, JsNum.isPos]

/-- With user coordinates, a space that has coordinates gets as its distance the
number `haversineDistance` computes, whatever it is: nothing stands between a
`NaN` of the computation and the listing that is sorted. -/
theorem spacesWithDistance_coords (M : JsMath JsNum) (g : GeoCoords) (s : Space) (lat lon : ℚ)
    (hlat : s.latitude = .val lat) (hlon : s.longitude = .val lon) :
    spacesWithDistance M (some g) [s] =
      [{ s with
          distance := .val (haversineMiles M (.fin g.lat) (.fin g.lon) (.fin lat) (.fin lon)) }] := by
  simp [spacesWithDistance, hlat, hlon, Nullable.toJsNum, haversineDistance,
    Nullable.isNullish]

/-! ## Properties of the space selection -/

/-- C14 fails for a space whose id is 0: chosen in the dropdown, the form's
`space_id` is 0 and `handleSubmit` makes no call to `onSubmit` and sets the
error "Select a study space."; passed as `defaultSpaceId`, it leaves the form's
`space_id` empty, at first and after the effect. -/
theorem handleSubmit_rejects_id_zero (onSubmit : Form → Bool) :
    (selectSpace (.space 0) initialForm).space_id = .num 0 ∧
      (handleSubmit onSubmit (selectSpace (.space 0) initialForm)).calls = [] ∧
      (∀ st : FormState,
        (applyUpdates (handleSubmit onSubmit (selectSpace (.space 0) initialForm)).updates
            st).status = some { type := "error", message := "Select a study space." }) ∧
      (initialFormOf (.val 0)).space_id = .empty ∧
      (syncDefaultSpace (.val 0) (initialFormOf (.val 0))).space_id = .empty := by
  refine ⟨rfl, ?_, ?_, rfl, rfl⟩
  · simp [handleSubmit, selectSpace, initialForm, SpaceIdValue.isFalsy]
  · intro st
    simp [handleSubmit, selectSpace, initialForm, SpaceIdValue.isFalsy, applyUpdates,
      StateUpdate.apply]

/-- A space with a non-zero id, chosen in the dropdown or passed as
`defaultSpaceId`, becomes the form's `space_id`, and `handleSubmit` then calls
`onSubmit` once with the form values. -/
theorem handleSubmit_accepts_nonzero_id (onSubmit : Form → Bool) (prev : Form) (n : Int)
    (hn : n ≠ 0) :
    (selectSpace (.space n) prev).space_id = .num n ∧
      (initialFormOf (.val n)).space_id = .num n ∧
      (syncDefaultSpace (.val n) prev).space_id = .num n ∧
      (handleSubmit onSubmit (selectSpace (.space n) prev)).calls =
        [(selectSpace (.space n) prev, onSubmit (selectSpace (.space n) prev))] := by
  refine ⟨rfl, ?_, ?_, ?_⟩
  · simp [initialFormOf, isFalsyId, hn]
  · simp [syncDefaultSpace, isFalsyId, hn]
  · unfold handleSubmit
    have hf : (selectSpace (.space n) prev).space_id.isFalsy = false := by
      simp [selectSpace, SpaceIdValue.isFalsy, hn]
    rw [hf]
    cases h : onSubmit (selectSpace (.space n) prev) <;> simp [h]

/-! ## Bounds on the distance -/

theorem haversineMiles_eq_term {F : Type} (M : JsMath F) (lat1 lon1 lat2 lon2 : F) :
    haversineMiles M lat1 lon1 lat2 lon2 =
      M.toFixed2 (M.mul (M.mul (M.lit 6371)
        (M.mul (M.lit 2)
          (M.atan2 (M.sqrt (haversineTerm M lat1 lon1 lat2 lon2))
            (M.sqrt (M.sub (M.lit 1) (haversineTerm M lat1 lon1 lat2 lon2))))))
        (M.lit 0.621371)) :=
  rfl

theorem haversineTerm_real (lat1 lon1 lat2 lon2 : ℝ) :
    haversineTerm realMath lat1 lon1 lat2 lon2 =
      Real.sin ((lat2 * Real.pi / 180 - lat1 * Real.pi / 180) / 2) ^ 2 +
        Real.cos (lat1 * Real.pi / 180) * Real.cos (lat2 * Real.pi / 180) *
          Real.sin ((lon2 - lon1) * Real.pi / 180 / 2) ^ 2 := by
  simp only [haversineTerm, realMath]
  norm_num
  ring_nf

theorem cos_toRad_nonneg (lat : ℝ) (hlo : -90 ≤ lat) (hhi : lat ≤ 90) :
    0 ≤ Real.cos (lat * Real.pi / 180) := by
  have hpi := Real.pi_pos
  apply Real.cos_nonneg_of_neg_pi_div_two_le_of_le
  · nlinarith
  · nlinarith

theorem haversineTerm_bounds (lat1 lon1 lat2 lon2 : ℝ)
    (h1lo : -90 ≤ lat1) (h1hi : lat1 ≤ 90) (h2lo : -90 ≤ lat2) (h2hi : lat2 ≤ 90) :
    0 ≤ haversineTerm realMath lat1 lon1 lat2 lon2 ∧
      haversineTerm realMath lat1 lon1 lat2 lon2 ≤ 1 := by
  rw [haversineTerm_real]
  have hc1 := cos_toRad_nonneg lat1 h1lo h1hi
  have hc2 := cos_toRad_nonneg lat2 h2lo h2hi
  have hcc : 0 ≤ Real.cos (lat1 * Real.pi / 180) * Real.cos (lat2 * Real.pi / 180) :=
    mul_nonneg hc1 hc2
  have hs0 := sq_nonneg (Real.sin ((lon2 - lon1) * Real.pi / 180 / 2))
  have hs1 := Real.sin_sq_le_one ((lon2 - lon1) * Real.pi / 180 / 2)
  have hd0 := sq_nonneg (Real.sin ((lat2 * Real.pi / 180 - lat1 * Real.pi / 180) / 2))
  constructor
  · exact add_nonneg hd0 (mul_nonneg hcc hs0)
  · have hhalf : Real.sin ((lat2 * Real.pi / 180 - lat1 * Real.pi / 180) / 2) ^ 2 =
        1 / 2 - Real.cos (lat2 * Real.pi / 180 - lat1 * Real.pi / 180) / 2 := by
      rw [Real.sin_sq_eq_half_sub]
      congr 3
      ring
    have hsum := Real.cos_add (lat1 * Real.pi / 180) (lat2 * Real.pi / 180)
    have hle := Real.cos_le_one (lat1 * Real.pi / 180 + lat2 * Real.pi / 180)
    rw [hhalf, Real.cos_sub]
    nlinarith [mul_le_mul_of_nonneg_left hs1 hcc]

theorem toFixed2_real_of_nonneg (x : ℝ) (h0 : 0 ≤ x) (hlt : x < (10 : ℝ) ^ 21) :
    realMath.toFixed2 x = (⌊x * 100 + 1 / 2⌋ : ℝ) / 100 := by
  have habs : ¬ (10 : ℝ) ^ 21 ≤ |x| := by
    rw [abs_of_nonneg h0]
    exact not_le.mpr hlt
  have hneg : ¬ x < 0 := not_lt.mpr h0
  simp only [realMath, habs, hneg, if_false]

theorem toFixed2_real_bounds (x b : ℝ) (h0 : 0 ≤ x) (hxb : x ≤ b) (hb : b < (10 : ℝ) ^ 21) :
    0 ≤ realMath.toFixed2 x ∧ realMath.toFixed2 x ≤ realMath.toFixed2 b := by
  rw [toFixed2_real_of_nonneg x h0 (lt_of_le_of_lt hxb hb),
    toFixed2_real_of_nonneg b (le_trans h0 hxb) hb]
  constructor
  · apply div_nonneg _ (by norm_num)
    exact_mod_cast Int.floor_nonneg.mpr (by linarith)
  · apply div_le_div_of_nonneg_right _ (by norm_num)
    exact_mod_cast Int.floor_le_floor (by linarith)

/-- In exact real arithmetic, for latitudes in `[-90, 90]` and any longitudes,
the haversine term `a` lies in `[0, 1]`, so that `a` and `1 - a` have square
roots, and the distance is non-negative and at most `pi * 6371 * 0.621371`
rounded to 2 decimals. Doubles can round `a` above 1, where this reading and the
code part. -/
theorem haversineDistance_bounds (lat1 lon1 lat2 lon2 : ℝ)
    (h1lo : -90 ≤ lat1) (h1hi : lat1 ≤ 90) (h2lo : -90 ≤ lat2) (h2hi : lat2 ≤ 90) :
    0 ≤ haversineTerm realMath lat1 lon1 lat2 lon2 ∧
      0 ≤ 1 - haversineTerm realMath lat1 lon1 lat2 lon2 ∧
      ∃ d : ℝ,
        haversineDistance realMath (.val lat1) (.val lon1) (.val lat2) (.val lon2) = .val d ∧
          0 ≤ d ∧ d ≤ realMath.toFixed2 (Real.pi * 6371 * 0.621371) := by
  obtain ⟨ha0, ha1⟩ := haversineTerm_bounds lat1 lon1 lat2 lon2 h1lo h1hi h2lo h2hi
  refine ⟨ha0, by linarith, haversineMiles realMath lat1 lon1 lat2 lon2, ?_, ?_⟩
  · simp [haversineDistance, Nullable.isNullish]
  · rw [haversineMiles_eq_term]
    generalize haversineTerm realMath lat1 lon1 lat2 lon2 = a at ha0 ha1
    have harg0 : 0 ≤ Complex.arg ⟨Real.sqrt (1 - a), Real.sqrt a⟩ :=
      Complex.arg_nonneg_iff.mpr (Real.sqrt_nonneg a)
    have harg1 : Complex.arg ⟨Real.sqrt (1 - a), Real.sqrt a⟩ ≤ Real.pi / 2 :=
      Complex.arg_le_pi_div_two_iff.mpr (Or.inl (Real.sqrt_nonneg (1 - a)))
    have hmiles : realMath.mul (realMath.mul (realMath.lit 6371)
          (realMath.mul (realMath.lit 2)
            (realMath.atan2 (realMath.sqrt a) (realMath.sqrt (realMath.sub (realMath.lit 1) a)))))
          (realMath.lit 0.621371) =
        6371 * (2 * Complex.arg ⟨Real.sqrt (1 - a), Real.sqrt a⟩) * 0.621371 := by
      simp only [realMath]
      norm_num
    rw [hmiles]
    apply toFixed2_real_bounds
    · positivity
    · nlinarith
    · have := Real.pi_lt_four
      norm_num
      nlinarith

/-- The real bounds at two points on the equator, a quarter turn apart. -/
theorem haversineDistance_bounds_equator :
    (-90 : ℝ) ≤ 0 ∧ (0 : ℝ) ≤ 90 ∧
      0 ≤ haversineTerm realMath 0 0 0 90 ∧ 0 ≤ 1 - haversineTerm realMath 0 0 0 90 ∧
      ∃ d : ℝ,
        haversineDistance realMath (.val 0) (.val 0) (.val 0) (.val 90) = .val d ∧
          0 ≤ d ∧ d ≤ realMath.toFixed2 (Real.pi * 6371 * 0.621371) :=
  ⟨by norm_num, by norm_num,
    haversineDistance_bounds 0 0 0 90 (by norm_num) (by norm_num) (by norm_num) (by norm_num)⟩

end StudySpot
